import Mathlib

/-!
Verification of the flood_agent streaming/correlation core.

Shallow embedding, translated from the Python sources:
  - src/server/websocket_manager.py  (WebSocketManager)
  - src/server/session_manager.py    (SessionManager)
  - src/server/adk_wrapper.py        (ADKEventCapture: translator, progress
    simulator, output correlator, latest-output snapshot)

Python dictionaries are modelled as key-unique association lists
(`List (String × α)`); `dict` membership, item assignment and `del` become
`lookupTable`, `tableSet` and `tableDel`.  WebSocket connection objects are
opaque and modelled as `Nat`; the ADK pipeline handle inside a session is
likewise an opaque `Nat`.  Network sends are modelled by a predicate saying
which connections accept a send (a failing send raises in Python; here it
simply marks the connection dead).  The filesystem trees scanned by the
output correlator are modelled explicitly as data.
-/

namespace FloodAgent

/-- Dictionary lookup on an association list (first matching key). -/
def lookupTable {α : Type} : List (String × α) → String → Option α
  | [], _ => none
  | (k, v) :: t, key => if k = key then some v else lookupTable t key

/-- Dictionary item assignment: replace the value stored under the key in
place, or append a fresh entry when the key is absent (insertion order of a
Python dict). -/
def tableSet {α : Type} : List (String × α) → String → α → List (String × α)
  | [], key, v => [(key, v)]
  | e :: t, key, v => if e.1 = key then (key, v) :: t else e :: tableSet t key v

/-- Dictionary deletion: drop the entry stored under the key. -/
def tableDel {α : Type} : List (String × α) → String → List (String × α)
  | [], _ => []
  | e :: t, key => if e.1 = key then tableDel t key else e :: tableDel t key

/-- Python list.remove: drop the first occurrence of an element. -/
def pyRemove : List Nat → Nat → List Nat
  | [], _ => []
  | y :: ys, x => if y = x then ys else y :: pyRemove ys x

theorem lookupTable_tableSet_self {α : Type} (t : List (String × α)) (k : String) (v : α) :
    lookupTable (tableSet t k v) k = some v := by
  induction t with
  | nil => simp [tableSet, lookupTable]
  | cons e t ih =>
    by_cases h : e.1 = k
    · simp [tableSet, h, lookupTable]
    · simp [tableSet, h, lookupTable, ih]

theorem lookupTable_tableSet_other {α : Type} (t : List (String × α)) (k k' : String)
    (v : α) (h : k' ≠ k) : lookupTable (tableSet t k v) k' = lookupTable t k' := by
  have hkk : ¬ k = k' := fun h' => h h'.symm
  induction t with
  | nil => simp [tableSet, lookupTable, hkk]
  | cons e t ih =>
    by_cases he : e.1 = k
    · have he' : ¬ e.1 = k' := by rw [he]; exact hkk
      simp [tableSet, he, lookupTable, hkk, he']
    · simp [tableSet, he, lookupTable, ih]

theorem lookupTable_tableDel_self {α : Type} (t : List (String × α)) (k : String) :
    lookupTable (tableDel t k) k = none := by
  induction t with
  | nil => simp [tableDel, lookupTable]
  | cons e t ih =>
    by_cases he : e.1 = k
    · simp [tableDel, he, ih]
    · simp [tableDel, he, lookupTable, ih]

theorem lookupTable_tableDel_other {α : Type} (t : List (String × α)) (k k' : String)
    (h : k' ≠ k) : lookupTable (tableDel t k) k' = lookupTable t k' := by
  have hkk : ¬ k = k' := fun h' => h h'.symm
  induction t with
  | nil => simp [tableDel]
  | cons e t ih =>
    by_cases he : e.1 = k
    · have he' : ¬ e.1 = k' := by rw [he]; exact hkk
      simp [tableDel, he, lookupTable, he', hkk, ih]
    · simp [tableDel, he, lookupTable, ih]

theorem tableSet_self_eq {α : Type} (t : List (String × α)) (k : String) (v : α)
    (h : lookupTable t k = some v) : tableSet t k v = t := by
  induction t with
  | nil => simp [lookupTable] at h
  | cons e t ih =>
    obtain ⟨k1, v1⟩ := e
    by_cases he : k1 = k
    · subst he
      simp [lookupTable] at h
      subst h
      simp [tableSet]
    · simp [lookupTable, he] at h
      simp [tableSet, he, ih h]

theorem mem_tableSet {α : Type} (t : List (String × α)) (k : String) (v : α)
    (e : String × α) (h : e ∈ tableSet t k v) : e = (k, v) ∨ e ∈ t := by
  induction t with
  | nil => simp [tableSet] at h; simp [h]
  | cons e' t ih =>
    by_cases he : e'.1 = k
    · simp [tableSet, he] at h
      rcases h with h | h
      · exact Or.inl h
      · exact Or.inr (List.mem_cons_of_mem _ h)
    · simp [tableSet, he] at h
      rcases h with h | h
      · exact Or.inr (by simp [h])
      · rcases ih h with h' | h'
        · exact Or.inl h'
        · exact Or.inr (List.mem_cons_of_mem _ h')

theorem mem_tableDel {α : Type} (t : List (String × α)) (k : String)
    (e : String × α) (h : e ∈ tableDel t k) : e ∈ t := by
  induction t with
  | nil => simp [tableDel] at h
  | cons e' t ih =>
    by_cases he : e'.1 = k
    · simp [tableDel, he] at h
      exact List.mem_cons_of_mem _ (ih h)
    · simp [tableDel, he] at h
      rcases h with h | h
      · simp [h]
      · exact List.mem_cons_of_mem _ (ih h)

/-! ## ConnectionMulticaster — src/server/websocket_manager.py -/

/-- State of WebSocketManager: the `active_connections` dictionary mapping a
session id to the list of attached websockets. -/
structure WSManager where
  active_connections : List (String × List Nat)
deriving DecidableEq

/-- WebSocketManager.connect: register the websocket under the session id
(creating the entry with an empty list first when absent, then appending).
The acknowledgment frame sent back on the new connection is not modelled. -/
def connect (st : WSManager) (ws : Nat) (sid : String) : WSManager :=
  let cur := match lookupTable st.active_connections sid with
    | some l => l
    | none => []
  ⟨tableSet st.active_connections sid (cur ++ [ws])⟩

/-- Membership-guarded removal, as in disconnect: the source tests
`websocket in self.active_connections[session_id]` before calling remove. -/
def removeIfPresent (l : List Nat) (x : Nat) : List Nat :=
  if x ∈ l then pyRemove l x else l

/-- WebSocketManager.disconnect: remove the websocket from the session entry
when present; delete the entry itself when the list becomes empty. -/
def disconnect (st : WSManager) (ws : Nat) (sid : String) : WSManager :=
  match lookupTable st.active_connections sid with
  | none => st
  | some conns =>
    let conns' := removeIfPresent conns ws
    if conns' = [] then ⟨tableDel st.active_connections sid⟩
    else ⟨tableSet st.active_connections sid conns'⟩

/-- WebSocketManager.broadcast: send the event to every connection of the
session; connections whose send raises are collected and disconnected after
the loop.  `sendOk` tells which connections accept the send.  Returns the
list of connections that received the event, and the new state. -/
def broadcast (st : WSManager) (sid : String) (sendOk : Nat → Bool) :
    List Nat × WSManager :=
  match lookupTable st.active_connections sid with
  | none => ([], st)
  | some conns =>
    let delivered := conns.filter sendOk
    let dead := conns.filter (fun c => ! sendOk c)
    (delivered, dead.foldl (fun s c => disconnect s c sid) st)

/-- WebSocketManager.get_connection_count: per-session count, or the total
over all sessions when no session id is given. -/
def get_connection_count (st : WSManager) (sid : Option String) : Nat :=
  match sid with
  | some s =>
    (match lookupTable st.active_connections s with
     | some l => l.length
     | none => 0)
  | none => (st.active_connections.map (fun e => e.2.length)).sum

/-- Entry stored for a list of connections: absent when empty (disconnect
deletes entries that become empty), present otherwise. -/
def optOf (l : List Nat) : Option (List Nat) :=
  if l = [] then none else some l

/-- Effect of one disconnect on the entry of the targeted session. -/
def discEntry (x : Nat) : Option (List Nat) → Option (List Nat)
  | none => none
  | some l =>
    let l' := removeIfPresent l x
    if l' = [] then none else some l'

theorem lookupTable_mem {α : Type} (t : List (String × α)) (k : String) (v : α)
    (h : lookupTable t k = some v) : (k, v) ∈ t := by
  induction t with
  | nil => simp [lookupTable] at h
  | cons e t ih =>
    obtain ⟨k1, v1⟩ := e
    by_cases he : k1 = k
    · subst he
      simp [lookupTable] at h
      subst h
      exact List.mem_cons_self _ _
    · simp [lookupTable, he] at h
      exact List.mem_cons_of_mem _ (ih h)

theorem disconnect_lookup_self (st : WSManager) (ws : Nat) (sid : String) :
    lookupTable (disconnect st ws sid).active_connections sid =
      discEntry ws (lookupTable st.active_connections sid) := by
  cases hl : lookupTable st.active_connections sid with
  | none => simp [disconnect, hl, discEntry]
  | some conns =>
    by_cases hc : removeIfPresent conns ws = []
    · simp [disconnect, hl, discEntry, hc, lookupTable_tableDel_self]
    · simp [disconnect, hl, discEntry, hc, lookupTable_tableSet_self]

theorem disconnect_lookup_other (st : WSManager) (ws : Nat) (sid sid' : String)
    (h : sid' ≠ sid) :
    lookupTable (disconnect st ws sid).active_connections sid' =
      lookupTable st.active_connections sid' := by
  cases hl : lookupTable st.active_connections sid with
  | none => simp [disconnect, hl]
  | some conns =>
    by_cases hc : removeIfPresent conns ws = []
    · simp [disconnect, hl, hc, lookupTable_tableDel_other _ _ _ h]
    · simp [disconnect, hl, hc, lookupTable_tableSet_other _ _ _ _ h]

theorem foldl_disconnect_lookup_self (ds : List Nat) (st : WSManager) (sid : String) :
    lookupTable (ds.foldl (fun s c => disconnect s c sid) st).active_connections sid =
      ds.foldl (fun e c => discEntry c e) (lookupTable st.active_connections sid) := by
  induction ds generalizing st with
  | nil => rfl
  | cons d ds ih =>
    simp only [List.foldl_cons, ih, disconnect_lookup_self]

theorem foldl_disconnect_lookup_other (ds : List Nat) (st : WSManager) (sid sid' : String)
    (h : sid' ≠ sid) :
    lookupTable (ds.foldl (fun s c => disconnect s c sid) st).active_connections sid' =
      lookupTable st.active_connections sid' := by
  induction ds generalizing st with
  | nil => rfl
  | cons d ds ih =>
    simp only [List.foldl_cons, ih, disconnect_lookup_other _ _ _ _ h]

theorem removeIfPresent_cons_ne (x d : Nat) (l : List Nat) (h : d ≠ x) :
    removeIfPresent (x :: l) d = x :: removeIfPresent l d := by
  have hxd : ¬ x = d := fun h' => h h'.symm
  by_cases hm : d ∈ l
  · simp [removeIfPresent, hm, pyRemove, hxd]
  · have : ¬ d ∈ x :: l := by
      intro hc
      rcases List.mem_cons.mp hc with hc | hc
      · exact h hc
      · exact hm hc
    simp [removeIfPresent, hm, this]

theorem foldl_removeIfPresent_cons (ds : List Nat) (x : Nat) (l : List Nat)
    (h : ∀ d ∈ ds, d ≠ x) :
    ds.foldl removeIfPresent (x :: l) = x :: ds.foldl removeIfPresent l := by
  induction ds generalizing l with
  | nil => rfl
  | cons d ds ih =>
    have hd : d ≠ x := h d (List.mem_cons_self _ _)
    simp only [List.foldl_cons, removeIfPresent_cons_ne _ _ _ hd]
    exact ih _ (fun d' hd' => h d' (List.mem_cons_of_mem _ hd'))

/-- Removing, one by one, every connection that fails the send leaves exactly
the connections that accept it. -/
theorem foldl_removeIfPresent_filter (f : Nat → Bool) (l : List Nat) :
    (l.filter (fun c => ! f c)).foldl removeIfPresent l = l.filter f := by
  induction l with
  | nil => rfl
  | cons x l ih =>
    by_cases hx : f x
    · have hdead : (x :: l).filter (fun c => ! f c) = l.filter (fun c => ! f c) := by
        simp [List.filter_cons, hx]
      rw [hdead, foldl_removeIfPresent_cons, ih]
      · simp [List.filter_cons, hx]
      · intro d hd
        intro hdx
        have := List.of_mem_filter hd
        rw [hdx, hx] at this
        simp at this
    · have hdead : (x :: l).filter (fun c => ! f c) = x :: l.filter (fun c => ! f c) := by
        simp [List.filter_cons, hx]
      have hstep : removeIfPresent (x :: l) x = l := by
        simp [removeIfPresent, pyRemove]
      rw [hdead, List.foldl_cons, hstep, ih]
      simp [List.filter_cons, hx]

theorem foldl_discEntry_none (ds : List Nat) :
    ds.foldl (fun e c => discEntry c e) none = none := by
  induction ds with
  | nil => rfl
  | cons d ds ih => simpa [discEntry] using ih

theorem removeIfPresent_nil (x : Nat) : removeIfPresent [] x = [] := by
  simp [removeIfPresent]

theorem foldl_removeIfPresent_nil (ds : List Nat) :
    ds.foldl removeIfPresent [] = [] := by
  induction ds with
  | nil => rfl
  | cons d ds ih => simpa [removeIfPresent_nil] using ih

theorem foldl_discEntry_optOf (ds : List Nat) (l : List Nat) (h : l ≠ []) :
    ds.foldl (fun e c => discEntry c e) (some l) = optOf (ds.foldl removeIfPresent l) := by
  induction ds generalizing l with
  | nil => simp [optOf, h]
  | cons d ds ih =>
    rw [List.foldl_cons, List.foldl_cons]
    by_cases hc : removeIfPresent l d = []
    · have h1 : discEntry d (some l) = none := by simp [discEntry, hc]
      rw [h1, foldl_discEntry_none, hc, foldl_removeIfPresent_nil]
      simp [optOf]
    · have h1 : discEntry d (some l) = some (removeIfPresent l d) := by
        simp [discEntry, hc]
      rw [h1]
      exact ih _ hc

/-- Claim C6 — broadcast isolates per-connection send failures: with at least
one connection attached to the session, every connection whose send succeeds
receives the event, the failing connections (and only they) are removed from
the session entry, and every other session is untouched. -/
theorem broadcast_self_healing (st : WSManager) (sid : String) (conns : List Nat)
    (sendOk : Nat → Bool)
    (hl : lookupTable st.active_connections sid = some conns)
    (hne : conns ≠ []) :
    (broadcast st sid sendOk).1 = conns.filter sendOk ∧
    lookupTable (broadcast st sid sendOk).2.active_connections sid =
      optOf (conns.filter sendOk) ∧
    ∀ sid', sid' ≠ sid →
      lookupTable (broadcast st sid sendOk).2.active_connections sid' =
        lookupTable st.active_connections sid' := by
  have hb : broadcast st sid sendOk =
      (conns.filter sendOk,
        (conns.filter (fun c => ! sendOk c)).foldl (fun s c => disconnect s c sid) st) := by
    simp [broadcast, hl]
  rw [hb]
  refine ⟨rfl, ?_, ?_⟩
  · rw [foldl_disconnect_lookup_self, hl, foldl_discEntry_optOf _ _ hne,
      foldl_removeIfPresent_filter]
  · intro sid' hs
    exact foldl_disconnect_lookup_other _ _ _ _ hs

/-- Witness for C6 at a concrete state: session "s" holds connections 1, 2, 3,
the send to connection 2 fails, session "t" is untouched. -/
theorem broadcast_self_healing_witness :
    (broadcast ⟨[("s", [1, 2, 3]), ("t", [7])]⟩ "s" (fun c => c != 2)).1 =
        [1, 3] ∧
    lookupTable (broadcast ⟨[("s", [1, 2, 3]), ("t", [7])]⟩ "s"
        (fun c => c != 2)).2.active_connections "s" = optOf [1, 3] ∧
    ∀ sid', sid' ≠ "s" →
      lookupTable (broadcast ⟨[("s", [1, 2, 3]), ("t", [7])]⟩ "s"
          (fun c => c != 2)).2.active_connections sid' =
        lookupTable [("s", [1, 2, 3]), ("t", [7])] sid' := by
  have h := broadcast_self_healing ⟨[("s", [1, 2, 3]), ("t", [7])]⟩ "s" [1, 2, 3]
    (fun c => c != 2) (by decide) (by decide)
  simpa using h

/-! ## Attach/detach traces for the connection-count invariant (C7) -/

/-- One observer operation on the multicaster. -/
inductive WSOp where
  | attach (ws : Nat) (sid : String)
  | detach (ws : Nat) (sid : String)
deriving DecidableEq

/-- Apply one operation to the manager state. -/
def applyOp (st : WSManager) : WSOp → WSManager
  | .attach ws sid => connect st ws sid
  | .detach ws sid => disconnect st ws sid

/-- Run a trace of operations from the initial (empty) manager state. -/
def runOps (ops : List WSOp) : WSManager :=
  ops.foldl applyOp ⟨[]⟩

/-- Specification-side effect of one operation on the list of connections
currently attached to `sid` (spec wording: the currently attached,
not-yet-failed connections of that session). -/
def specStep (sid : String) (l : List Nat) : WSOp → List Nat
  | .attach ws s => if s = sid then l ++ [ws] else l
  | .detach ws s => if s = sid then removeIfPresent l ws else l

/-- Specification-side list of connections attached to `sid` after a trace. -/
def specAttached (ops : List WSOp) (sid : String) : List Nat :=
  ops.foldl (specStep sid) []

theorem connect_lookup (st : WSManager) (ws : Nat) (sid : String)
    (A : String → List Nat)
    (h : ∀ s, lookupTable st.active_connections s = optOf (A s)) (s : String) :
    lookupTable (connect st ws sid).active_connections s =
      optOf (if sid = s then A s ++ [ws] else A s) := by
  have hcur : (match lookupTable st.active_connections sid with
      | some l => l
      | none => []) = A sid := by
    rw [h sid]
    by_cases hA : A sid = [] <;> simp [optOf, hA]
  by_cases hs : sid = s
  · subst hs
    simp only [connect, hcur, if_pos rfl]
    rw [lookupTable_tableSet_self]
    simp [optOf]
  · have hs' : s ≠ sid := fun h' => hs h'.symm
    simp only [connect, hcur, if_neg hs]
    rw [lookupTable_tableSet_other _ _ _ _ hs']
    exact h s

theorem disconnect_lookup (st : WSManager) (ws : Nat) (sid : String)
    (A : String → List Nat)
    (h : ∀ s, lookupTable st.active_connections s = optOf (A s)) (s : String) :
    lookupTable (disconnect st ws sid).active_connections s =
      optOf (if sid = s then removeIfPresent (A s) ws else A s) := by
  by_cases hs : sid = s
  · subst hs
    rw [disconnect_lookup_self, h sid, if_pos rfl]
    by_cases hA : A sid = []
    · simp [hA, optOf, discEntry, removeIfPresent_nil]
    · by_cases hc : removeIfPresent (A sid) ws = [] <;>
        simp [optOf, hA, discEntry, hc]
  · have hs' : s ≠ sid := fun h' => hs h'.symm
    rw [disconnect_lookup_other _ _ _ _ hs', if_neg hs]
    exact h s

theorem runOps_lookup (ops : List WSOp) (st : WSManager) (A : String → List Nat)
    (h : ∀ s, lookupTable st.active_connections s = optOf (A s)) (sid : String) :
    lookupTable (ops.foldl applyOp st).active_connections sid =
      optOf (ops.foldl (specStep sid) (A sid)) := by
  induction ops generalizing st A with
  | nil => exact h sid
  | cons op ops ih =>
    rw [List.foldl_cons, List.foldl_cons]
    cases op with
    | attach ws s0 =>
      have := ih (connect st ws s0) (fun s => if s0 = s then A s ++ [ws] else A s)
        (connect_lookup st ws s0 A h)
      rw [show applyOp st (WSOp.attach ws s0) = connect st ws s0 from rfl, this]
      by_cases hs : s0 = sid <;> simp [specStep, hs]
    | detach ws s0 =>
      have := ih (disconnect st ws s0) (fun s => if s0 = s then removeIfPresent (A s) ws else A s)
        (disconnect_lookup st ws s0 A h)
      rw [show applyOp st (WSOp.detach ws s0) = disconnect st ws s0 from rfl, this]
      by_cases hs : s0 = sid <;> simp [specStep, hs]

/-- Entries of the manager never hold an empty connection list. -/
def noEmptyEntries (st : WSManager) : Prop :=
  ∀ e ∈ st.active_connections, e.2 ≠ []

theorem connect_noEmpty (st : WSManager) (ws : Nat) (sid : String)
    (h : noEmptyEntries st) : noEmptyEntries (connect st ws sid) := by
  intro e he
  rcases mem_tableSet _ _ _ _ he with h' | h'
  · rw [h']
    simp
  · exact h e h'

theorem disconnect_noEmpty (st : WSManager) (ws : Nat) (sid : String)
    (h : noEmptyEntries st) : noEmptyEntries (disconnect st ws sid) := by
  intro e he
  unfold disconnect at he
  cases hl : lookupTable st.active_connections sid with
  | none =>
    rw [hl] at he
    exact h e he
  | some conns =>
    rw [hl] at he
    by_cases hc : removeIfPresent conns ws = []
    · simp only [hc, if_pos rfl] at he
      exact h e (mem_tableDel _ _ _ he)
    · simp only [if_neg hc] at he
      rcases mem_tableSet _ _ _ _ he with h' | h'
      · rw [h']
        exact hc
      · exact h e h'

theorem runOps_noEmpty (ops : List WSOp) : noEmptyEntries (runOps ops) := by
  have : ∀ st, noEmptyEntries st → noEmptyEntries (ops.foldl applyOp st) := by
    induction ops with
    | nil => exact fun st h => h
    | cons op ops ih =>
      intro st h
      rw [List.foldl_cons]
      apply ih
      cases op with
      | attach ws sid => exact connect_noEmpty st ws sid h
      | detach ws sid => exact disconnect_noEmpty st ws sid h
  exact this ⟨[]⟩ (by intro e he; simp at he)

/-- Claim C7 — for every trace of attach/detach operations,
`connection_count` for a session equals the number of currently attached
connections of that session, and no entry of the table is ever an empty
list (empty sets are removed by detach). -/
theorem connection_count_invariant (ops : List WSOp) (sid : String) :
    get_connection_count (runOps ops) (some sid) = (specAttached ops sid).length ∧
    ∀ e ∈ (runOps ops).active_connections, e.2 ≠ [] := by
  constructor
  · have h := runOps_lookup ops ⟨[]⟩ (fun _ => []) (by intro s; simp [lookupTable, optOf]) sid
    show (match lookupTable (runOps ops).active_connections sid with
      | some l => l.length
      | none => 0) = _
    rw [show (runOps ops).active_connections = ((ops.foldl applyOp ⟨[]⟩) : WSManager).active_connections from rfl, h]
    by_cases hA : ops.foldl (specStep sid) [] = [] <;>
      simp [optOf, hA, specAttached]
  · exact runOps_noEmpty ops

/-- Claim C10 — disconnect is total and a strict no-op when there is nothing
to remove: if the session has no entry, or the websocket is not registered
under the session, the state is returned unchanged (the hypothesis that no
entry is empty is the invariant maintained by every reachable state, proved
in `runOps_noEmpty`). -/
theorem disconnect_noop (st : WSManager) (ws : Nat) (sid : String)
    (hinv : ∀ e ∈ st.active_connections, e.2 ≠ [])
    (habs : ws ∉ (lookupTable st.active_connections sid).getD []) :
    disconnect st ws sid = st := by
  unfold disconnect
  cases hl : lookupTable st.active_connections sid with
  | none => rfl
  | some conns =>
    rw [hl] at habs
    simp only [Option.getD_some] at habs
    have hraw : removeIfPresent conns ws = conns := by
      simp [removeIfPresent, habs]
    have hne : conns ≠ [] := hinv (sid, conns) (lookupTable_mem _ _ _ hl)
    simp only [hraw, if_neg hne]
    show (⟨tableSet st.active_connections sid conns⟩ : WSManager) = st
    rw [tableSet_self_eq _ _ _ hl]

/-- Witness for C10: disconnecting websocket 2 from session "s", which only
holds websocket 1, and from the absent session "u", changes nothing. -/
theorem disconnect_noop_witness :
    disconnect ⟨[("s", [1])]⟩ 2 "s" = ⟨[("s", [1])]⟩ ∧
    disconnect ⟨[("s", [1])]⟩ 2 "u" = ⟨[("s", [1])]⟩ :=
  ⟨disconnect_noop ⟨[("s", [1])]⟩ 2 "s" (by decide) (by decide),
   disconnect_noop ⟨[("s", [1])]⟩ 2 "u" (by decide) (by decide)⟩

/-! ## SessionRegistry — src/server/session_manager.py -/

/-- State of SessionManager: the `sessions` dictionary mapping our session id
to the stored ADK session (pipeline handle, modelled as an opaque `Nat`),
plus a counter standing for the session service handing out fresh session
objects. -/
structure SMState where
  sessions : List (String × Nat)
  nextHandle : Nat
deriving DecidableEq

/-- SessionManager.get_or_create_session.  `sid` is the optional
caller-supplied id (`None` and the empty string are both falsy in the
source); `freshSid` models the generated `session_<uuid>` id used when no id
was supplied; `createFails` models whether the awaited
`adk_session_service.create_session` call raises.  Returns the result
(or the propagated error) together with the registry state after the call. -/
def get_or_create_session (st : SMState) (sid : Option String) (freshSid : String)
    (createFails : Bool) : Except String Nat × SMState :=
  let create : String → Except String Nat × SMState := fun key =>
    if createFails then (Except.error "create_session failed", st)
    else (Except.ok st.nextHandle,
      ⟨tableSet st.sessions key st.nextHandle, st.nextHandle + 1⟩)
  match sid with
  | some s =>
    if s ≠ "" then
      match lookupTable st.sessions s with
      | some sess => (Except.ok sess, st)
      | none => create s
    else create freshSid
  | none => create freshSid

/-- Claim C4 — idempotent resume: when a session is already stored under the
caller-supplied id, `get_or_create_session` returns exactly that session and
leaves the registry unchanged, so a second call with the same id returns the
same pipeline handle again and creates nothing. -/
theorem get_or_create_session_idempotent (st : SMState) (s : String) (sess : Nat)
    (freshSid freshSid' : String) (b b' : Bool)
    (hs : s ≠ "") (hmem : lookupTable st.sessions s = some sess) :
    get_or_create_session st (some s) freshSid b = (Except.ok sess, st) ∧
    get_or_create_session (get_or_create_session st (some s) freshSid b).2
        (some s) freshSid' b' = (Except.ok sess, st) := by
  have h1 : get_or_create_session st (some s) freshSid b = (Except.ok sess, st) := by
    simp [get_or_create_session, hs, hmem]
  refine ⟨h1, ?_⟩
  rw [h1]
  simp [get_or_create_session, hs, hmem]

/-- Witness for C4 at the concrete registry holding "abc". -/
theorem get_or_create_session_idempotent_witness :
    get_or_create_session ⟨[("abc", 5)], 6⟩ (some "abc") "f1" false =
      (Except.ok 5, ⟨[("abc", 5)], 6⟩) ∧
    get_or_create_session
        (get_or_create_session ⟨[("abc", 5)], 6⟩ (some "abc") "f1" false).2
        (some "abc") "f2" false = (Except.ok 5, ⟨[("abc", 5)], 6⟩) :=
  get_or_create_session_idempotent ⟨[("abc", 5)], 6⟩ "abc" 5 "f1" "f2" false false
    (by decide) (by decide)

/-- Claim C5 — atomicity on failure: when the underlying session creation
raises, the error propagates and the registry is unchanged; in every case a
failing creation never registers a partial session (the only successful
outcome with `createFails = true` is a pure resume, which also leaves the
registry unchanged). -/
theorem get_or_create_session_atomic_failure (st : SMState) (sid : Option String)
    (freshSid : String)
    (hmiss : ∀ s, sid = some s → s ≠ "" → lookupTable st.sessions s = none) :
    get_or_create_session st sid freshSid true =
      (Except.error "create_session failed", st) := by
  cases sid with
  | none => simp [get_or_create_session]
  | some s =>
    by_cases hs : s = ""
    · simp [get_or_create_session, hs]
    · simp [get_or_create_session, hs, hmiss s rfl hs]

/-- Witness for C5: creation failure with a fresh id and with an unknown
caller id both propagate the error and leave the registry untouched. -/
theorem get_or_create_session_atomic_failure_witness :
    get_or_create_session ⟨[("abc", 5)], 6⟩ none "f1" true =
      (Except.error "create_session failed", ⟨[("abc", 5)], 6⟩) ∧
    get_or_create_session ⟨[("abc", 5)], 6⟩ (some "xyz") "f1" true =
      (Except.error "create_session failed", ⟨[("abc", 5)], 6⟩) :=
  ⟨get_or_create_session_atomic_failure ⟨[("abc", 5)], 6⟩ none "f1"
      (by intro s h; cases h),
   get_or_create_session_atomic_failure ⟨[("abc", 5)], 6⟩ (some "xyz") "f1"
      (by intro s h hs; cases h; decide)⟩

/-! ## EventTranslator — src/server/adk_wrapper.py, ADKEventCapture.run_agent -/

/-- Opaque result payload of a tool: either a dictionary (field values
modelled as strings, which is all the translator reads from them) or any
non-dictionary value. -/
inductive ToolResult where
  | dict (fields : List (String × String))
  | nondict
deriving DecidableEq

/-- Raw "tool returned" record: the `function_response` part of an ADK event.
`name = none` models a record without a usable name attribute; `response =
none` models a record without a response attribute. -/
structure FuncResponse where
  name : Option String
  response : Option ToolResult
deriving DecidableEq

/-- Translator state threaded through run_agent: the `current_tool` and
`current_run_id` loop variables and the key sets of the `_active_tools` and
`_progress_tasks` dictionaries (their values — timestamps and task handles —
play no role in the translation logic). -/
structure TranslatorState where
  current_tool : Option String
  current_run_id : Option String
  active_tools : List String
  progress_tasks : List String
deriving DecidableEq

/-- Translated wire events broadcast by run_agent, plus a marker recording
that the output-artifact correlation step `_check_new_outputs` was invoked
with a given run id. -/
inductive TEvent where
  | agentThought (agent thought : String)
  | toolStart (tool status : String) (progress : Nat)
  | toolProgress (tool status : String) (progress : Nat)
  | toolComplete (tool : Option String) (status : String) (progress : Nat)
      (result : Option ToolResult)
  | checkOutputs (run_id : String)
deriving DecidableEq

/-- Python str() of an optional string, as used inside an f-string. -/
def pyStr : Option String → String
  | some s => s
  | none => "None"

/-- The tool name resolved for a completion record: the record name when
present, the translator current_tool otherwise. -/
def respToolName (st : TranslatorState) (fr : FuncResponse) : Option String :=
  match fr.name with
  | some n => some n
  | none => st.current_tool

/-- Run-id extraction from a tool result: the run_id field of a dictionary
result, the parent_dir field as fallback, nothing otherwise. -/
def extractRunId : Option ToolResult → Option String
  | some (ToolResult.dict fields) =>
    (match lookupTable fields "run_id" with
     | some v => some v
     | none => lookupTable fields "parent_dir")
  | _ => none

/-- Delete every occurrence of a key from a key set (Python `del d[k]` on a
key-unique dictionary). -/
def delKey : List String → String → List String
  | [], _ => []
  | y :: ys, k => if y = k then delKey ys k else y :: delKey ys k

/-- Processing of one raw "tool returned" record by run_agent
(src/server/adk_wrapper.py lines 135-185): resolve the tool name, update
`current_run_id` from the result when extractable, cancel and drop the
progress task for the tool name, drop the tool from the active set, emit the
tool_complete event carrying the opaque result, and invoke
`_check_new_outputs` when (and only when) the updated `current_run_id` is
truthy.  `current_tool` is left untouched by the source. -/
def handle_function_response (st : TranslatorState) (fr : FuncResponse) :
    TranslatorState × List TEvent :=
  let tool_name := respToolName st fr
  let run_id' := match extractRunId fr.response with
    | some r => some r
    | none => st.current_run_id
  let progress_tasks' := match tool_name with
    | some n =>
      if n ∈ st.progress_tasks then delKey st.progress_tasks n else st.progress_tasks
    | none => st.progress_tasks
  let active_tools' := match tool_name with
    | some n =>
      if n ∈ st.active_tools then delKey st.active_tools n else st.active_tools
    | none => st.active_tools
  let completeEvent :=
    TEvent.toolComplete tool_name ("Completed " ++ pyStr tool_name) 100 fr.response
  let outputEvents := match run_id' with
    | some r => if r = "" then [] else [TEvent.checkOutputs r]
    | none => []
  (⟨st.current_tool, run_id', active_tools', progress_tasks'⟩,
   completeEvent :: outputEvents)

theorem not_mem_delKey (l : List String) (k : String) : k ∉ delKey l k := by
  induction l with
  | nil => simp [delKey]
  | cons y ys ih =>
    by_cases hy : y = k
    · simpa [delKey, hy] using ih
    · intro hmem
      simp [delKey, hy] at hmem
      rcases hmem with h | h
      · exact hy h.symm
      · exact ih h

/-- Claim C1, counterexample to the statement as written: a "tool returned"
record whose result is not a dictionary (so no run id is extractable) does
NOT skip the output-correlation step when a run id is already held from an
earlier record — `_check_new_outputs` is still invoked with the old id. -/
theorem run_id_less_completion_counterexample :
    TEvent.checkOutputs "20240101_000000" ∈
      (handle_function_response
        ⟨some "toolA", some "20240101_000000", [], []⟩
        ⟨some "toolB", some ToolResult.nondict⟩).2 := by
  decide

/-- Claim C1 as amended — a record without an extractable run identifier is a
valid completion: the tool_complete event is still emitted (first), and when
no run identifier is held over from earlier records the correlation step is
skipped (no checkOutputs invocation), with no error. -/
theorem run_id_less_completion (st : TranslatorState) (fr : FuncResponse)
    (hex : extractRunId fr.response = none) (hrid : st.current_run_id = none) :
    (handle_function_response st fr).2 =
      [TEvent.toolComplete (respToolName st fr)
        ("Completed " ++ pyStr (respToolName st fr)) 100 fr.response] ∧
    ∀ r, TEvent.checkOutputs r ∉ (handle_function_response st fr).2 := by
  have h2 : (handle_function_response st fr).2 =
      [TEvent.toolComplete (respToolName st fr)
        ("Completed " ++ pyStr (respToolName st fr)) 100 fr.response] := by
    simp [handle_function_response, hex, hrid]
  refine ⟨h2, ?_⟩
  intro r
  rw [h2]
  simp

/-- Witness for amended C1: a completion with a non-dictionary result in a
fresh translator state emits exactly the tool_complete event. -/
theorem run_id_less_completion_witness :
    (handle_function_response ⟨none, none, [], []⟩
        ⟨some "toolB", some ToolResult.nondict⟩).2 =
      [TEvent.toolComplete (respToolName ⟨none, none, [], []⟩
          ⟨some "toolB", some ToolResult.nondict⟩)
        ("Completed " ++ pyStr (respToolName ⟨none, none, [], []⟩
          ⟨some "toolB", some ToolResult.nondict⟩)) 100
        (some ToolResult.nondict)] ∧
    ∀ r, TEvent.checkOutputs r ∉
      (handle_function_response ⟨none, none, [], []⟩
        ⟨some "toolB", some ToolResult.nondict⟩).2 :=
  run_id_less_completion ⟨none, none, [], []⟩ ⟨some "toolB", some ToolResult.nondict⟩
    (by decide) (by decide)

/-- Claim C3, counterexample to the statement as written: after processing a
"tool returned" record the translator current_tool state is NOT cleared —
the source never resets the variable. -/
theorem tool_complete_counterexample :
    (handle_function_response
        ⟨some "segment_flood_area", none, ["segment_flood_area"], ["segment_flood_area"]⟩
        ⟨some "segment_flood_area",
          some (ToolResult.dict [("run_id", "r1")])⟩).1.current_tool =
      some "segment_flood_area" := by
  decide

/-- Claim C3 as amended — a "tool returned" record emits first a
tool_complete event with progress 100 carrying the opaque result, removes
(cancels) any progress-simulator task registered for the tool name, and
removes the tool from the active-tool set; `current_tool` is left unchanged
rather than cleared. -/
theorem tool_complete_processing (st : TranslatorState) (fr : FuncResponse)
    (n : String) (hn : fr.name = some n) :
    (handle_function_response st fr).2.head? =
      some (TEvent.toolComplete (some n) ("Completed " ++ n) 100 fr.response) ∧
    n ∉ (handle_function_response st fr).1.progress_tasks ∧
    n ∉ (handle_function_response st fr).1.active_tools ∧
    (handle_function_response st fr).1.current_tool = st.current_tool := by
  have hpt : (handle_function_response st fr).1.progress_tasks =
      (if n ∈ st.progress_tasks then delKey st.progress_tasks n
       else st.progress_tasks) := by
    simp [handle_function_response, respToolName, hn]
  have hat : (handle_function_response st fr).1.active_tools =
      (if n ∈ st.active_tools then delKey st.active_tools n
       else st.active_tools) := by
    simp [handle_function_response, respToolName, hn]
  refine ⟨?_, ?_, ?_, ?_⟩
  · simp [handle_function_response, respToolName, hn, pyStr]
  · rw [hpt]
    by_cases hm : n ∈ st.progress_tasks
    · simpa [hm] using not_mem_delKey st.progress_tasks n
    · simp [hm]
  · rw [hat]
    by_cases hm : n ∈ st.active_tools
    · simpa [hm] using not_mem_delKey st.active_tools n
    · simp [hm]
  · rfl

/-- Witness for amended C3 at a concrete completion of segment_flood_area
while its simulator task is registered. -/
theorem tool_complete_processing_witness :
    (handle_function_response
        ⟨some "segment_flood_area", none, ["segment_flood_area"], ["segment_flood_area"]⟩
        ⟨some "segment_flood_area", some (ToolResult.dict [("parent_dir", "d1")])⟩).2.head? =
      some (TEvent.toolComplete (some "segment_flood_area")
        ("Completed " ++ "segment_flood_area") 100
        (some (ToolResult.dict [("parent_dir", "d1")]))) ∧
    "segment_flood_area" ∉
      (handle_function_response
        ⟨some "segment_flood_area", none, ["segment_flood_area"], ["segment_flood_area"]⟩
        ⟨some "segment_flood_area", some (ToolResult.dict [("parent_dir", "d1")])⟩).1.progress_tasks ∧
    "segment_flood_area" ∉
      (handle_function_response
        ⟨some "segment_flood_area", none, ["segment_flood_area"], ["segment_flood_area"]⟩
        ⟨some "segment_flood_area", some (ToolResult.dict [("parent_dir", "d1")])⟩).1.active_tools ∧
    (handle_function_response
        ⟨some "segment_flood_area", none, ["segment_flood_area"], ["segment_flood_area"]⟩
        ⟨some "segment_flood_area", some (ToolResult.dict [("parent_dir", "d1")])⟩).1.current_tool =
      some "segment_flood_area" :=
  tool_complete_processing
    ⟨some "segment_flood_area", none, ["segment_flood_area"], ["segment_flood_area"]⟩
    ⟨some "segment_flood_area", some (ToolResult.dict [("parent_dir", "d1")])⟩
    "segment_flood_area" rfl

/-! ## ProgressSimulator — ADKEventCapture._monitor_tool_progress -/

/-- Fixed (delay, progress, message) schedule per long-running tool, from
_monitor_tool_progress; unrecognized tools have no schedule (the task
returns at once). -/
def stages (tool_name : String) : List (Nat × Nat × String) :=
  if tool_name = "segment_flood_area" then
    [(3, 20, "Searching for Sentinel-2 imagery..."),
     (8, 40, "Downloading satellite data..."),
     (15, 60, "Running Prithvi water segmentation..."),
     (10, 85, "Analyzing water coverage..."),
     (5, 95, "Saving results...")]
  else if tool_name = "get_time_series_water" then
    [(5, 25, "Searching for time series images..."),
     (15, 50, "Processing multiple dates..."),
     (15, 75, "Computing statistics..."),
     (10, 95, "Generating outputs...")]
  else []

/-- Progress ticks emitted by the simulator task when it gets through the
first `k` schedule entries before the break on tool completion or the
cancellation stops it (cancellation and the active-tool check sit at the top
of each iteration, so any emitted prefix of the schedule is possible and
nothing else). -/
def monitorTicks (tool : String) (k : Nat) : List TEvent :=
  ((stages tool).take k).map (fun s => TEvent.toolProgress tool s.2.2 s.2.1)

/-- Event subsequence of one simulated long-running tool invocation as
broadcast by run_agent: the tool_start event with progress 0, the simulator
ticks, and the tool_complete event with progress 100 (broadcast after the
simulator task is cancelled). -/
def toolInvocationEvents (tool : String) (k : Nat) (res : Option ToolResult) :
    List TEvent :=
  TEvent.toolStart tool ("Starting " ++ tool ++ "...") 0 ::
    (monitorTicks tool k ++
      [TEvent.toolComplete (some tool) ("Completed " ++ tool) 100 res])

/-- Progress value of a progress tick, nothing for other events. -/
def progressOf : TEvent → Option Nat
  | TEvent.toolProgress _ _ p => some p
  | _ => none

/-- Progress values of the progress ticks of an event sequence. -/
def progressTicks (evs : List TEvent) : List Nat :=
  evs.filterMap progressOf

/-- Terminal (tool_complete) event recognizer. -/
def isTerminal : TEvent → Bool
  | TEvent.toolComplete _ _ _ _ => true
  | _ => false

theorem filterMap_progress_map (tool : String) (l : List (Nat × Nat × String)) :
    List.filterMap progressOf (l.map (fun s => TEvent.toolProgress tool s.2.2 s.2.1)) =
      l.map (fun s => s.2.1) := by
  induction l with
  | nil => rfl
  | cons s l ih => simp [List.filterMap_cons, progressOf, ih]

theorem filter_isTerminal_map (tool : String) (l : List (Nat × Nat × String)) :
    (l.map (fun s => TEvent.toolProgress tool s.2.2 s.2.1)).filter isTerminal = [] := by
  induction l with
  | nil => rfl
  | cons s l ih => simp [List.filter_cons, isTerminal, ih]

theorem invocation_wellformed_aux (tool : String) (k : Nat) (res : Option ToolResult)
    (hc : List.Chain' (· ≤ ·) ((stages tool).map (fun s => s.2.1)))
    (hb : ∀ p ∈ (stages tool).map (fun s => s.2.1), 0 < p ∧ p < 100) :
    (toolInvocationEvents tool k res).head? =
      some (TEvent.toolStart tool ("Starting " ++ tool ++ "...") 0) ∧
    (toolInvocationEvents tool k res).getLast? =
      some (TEvent.toolComplete (some tool) ("Completed " ++ tool) 100 res) ∧
    List.Chain' (· ≤ ·) (progressTicks (toolInvocationEvents tool k res)) ∧
    (∀ p ∈ progressTicks (toolInvocationEvents tool k res), 0 < p ∧ p < 100) ∧
    (toolInvocationEvents tool k res).filter isTerminal =
      [TEvent.toolComplete (some tool) ("Completed " ++ tool) 100 res] := by
  have h1 : progressTicks (toolInvocationEvents tool k res) =
      progressTicks (monitorTicks tool k) := by
    simp [progressTicks, toolInvocationEvents, List.filterMap_cons,
      List.filterMap_append, progressOf]
  have hticks : progressTicks (toolInvocationEvents tool k res) =
      ((stages tool).map (fun s => s.2.1)).take k := by
    rw [h1, progressTicks, monitorTicks, filterMap_progress_map, List.map_take]
  refine ⟨rfl, ?_, ?_, ?_, ?_⟩
  · have hsplit : toolInvocationEvents tool k res =
        (TEvent.toolStart tool ("Starting " ++ tool ++ "...") 0 :: monitorTicks tool k) ++
          [TEvent.toolComplete (some tool) ("Completed " ++ tool) 100 res] := by
      simp [toolInvocationEvents]
    rw [hsplit, List.getLast?_concat]
  · rw [hticks]
    exact hc.take k
  · intro p hp
    rw [hticks] at hp
    exact hb p (List.take_subset _ _ hp)
  · have hfil : (monitorTicks tool k).filter isTerminal = [] := by
      rw [monitorTicks, filter_isTerminal_map tool ((stages tool).take k)]
    simp [toolInvocationEvents, List.filter_cons, List.filter_append, isTerminal, hfil]

/-- Claim C8 — a simulated long-running tool invocation starts with a
tool_start event at progress 0, its progress ticks are non-decreasing and
strictly between 0 and 100, the last event is the single terminal
tool_complete event at progress 100, and no progress tick follows it. -/
theorem simulated_tool_progress (tool : String) (k : Nat) (res : Option ToolResult)
    (h : tool = "segment_flood_area" ∨ tool = "get_time_series_water") :
    (toolInvocationEvents tool k res).head? =
      some (TEvent.toolStart tool ("Starting " ++ tool ++ "...") 0) ∧
    (toolInvocationEvents tool k res).getLast? =
      some (TEvent.toolComplete (some tool) ("Completed " ++ tool) 100 res) ∧
    List.Chain' (· ≤ ·) (progressTicks (toolInvocationEvents tool k res)) ∧
    (∀ p ∈ progressTicks (toolInvocationEvents tool k res), 0 < p ∧ p < 100) ∧
    (toolInvocationEvents tool k res).filter isTerminal =
      [TEvent.toolComplete (some tool) ("Completed " ++ tool) 100 res] := by
  have hts : stages "get_time_series_water" =
      [(5, 25, "Searching for time series images..."),
       (15, 50, "Processing multiple dates..."),
       (15, 75, "Computing statistics..."),
       (10, 95, "Generating outputs...")] := by decide
  rcases h with h | h <;> subst h
  · exact invocation_wellformed_aux _ k res
      (by simp only [stages]; norm_num [List.chain'_cons]) (by decide)
  · exact invocation_wellformed_aux _ k res
      (by rw [hts]; norm_num [List.chain'_cons]) (by decide)

/-- Witness for C8: segment_flood_area cancelled after three ticks. -/
theorem simulated_tool_progress_witness :
    (toolInvocationEvents "segment_flood_area" 3 none).head? =
      some (TEvent.toolStart "segment_flood_area"
        ("Starting " ++ "segment_flood_area" ++ "...") 0) ∧
    (toolInvocationEvents "segment_flood_area" 3 none).getLast? =
      some (TEvent.toolComplete (some "segment_flood_area")
        ("Completed " ++ "segment_flood_area") 100 none) ∧
    List.Chain' (· ≤ ·) (progressTicks (toolInvocationEvents "segment_flood_area" 3 none)) ∧
    (∀ p ∈ progressTicks (toolInvocationEvents "segment_flood_area" 3 none),
      0 < p ∧ p < 100) ∧
    (toolInvocationEvents "segment_flood_area" 3 none).filter isTerminal =
      [TEvent.toolComplete (some "segment_flood_area")
        ("Completed " ++ "segment_flood_area") 100 none] :=
  simulated_tool_progress "segment_flood_area" 3 none (Or.inl rfl)

/-! ## OutputCorrelator — ADKEventCapture._check_new_outputs /
_check_directory_for_outputs -/

/-- Kernel-reducible suffix test on strings, used to model the
`glob("*.webp")` / `glob("*.tif")` patterns (a directory-local glob on a
simple `*.ext` pattern selects exactly the file names with that suffix). -/
def strEndsWith (f suf : String) : Bool :=
  suf.data.isSuffixOf f.data

/-- Scannable content of one output directory: its plain file names and its
gauge_data.json — `none` when the file does not exist, `some none` when it
exists but does not parse, `some (some g)` when it parses to `g`. -/
structure OutDirEntry where
  files : List String
  gauge : Option (Option String)
deriving DecidableEq

/-- A run directory: its own files plus its (name, content) subdirectories
(the date-named subdirectories of a time-series run). -/
structure RunDirTree where
  content : OutDirEntry
  subdirs : List (String × OutDirEntry)
deriving DecidableEq

/-- DataUpdate events broadcast by the output correlator. -/
inductive CEvent where
  | imageReady (run_id : String) (images : List String) (count : Nat)
  | gaugeData (run_id : String) (data : String)
deriving DecidableEq

/-- URL path built for an image file found in a scanned directory. -/
def imgPath (run_id dirname f : String) : String :=
  "/api/outputs/" ++ run_id ++ "/" ++ dirname ++ "/" ++ f

/-- ADKEventCapture._check_directory_for_outputs: one image_ready event when
the directory holds any .webp or .tif file (listing all of them), then one
gauge_data event when gauge_data.json exists and parses; a parse failure is
swallowed. -/
def check_directory_for_outputs (run_id dirname : String) (d : OutDirEntry) :
    List CEvent :=
  let images := d.files.filter (fun f => strEndsWith f ".webp") ++
    d.files.filter (fun f => strEndsWith f ".tif")
  (if images = [] then []
   else [CEvent.imageReady run_id (images.map (imgPath run_id dirname)) images.length]) ++
  (match d.gauge with
   | some (some g) => [CEvent.gaugeData run_id g]
   | _ => [])

/-- ADKEventCapture._check_new_outputs: nothing for a falsy run id or a
missing run directory; scan each subdirectory independently when there are
any, the run directory itself otherwise (the main directory's name is the
run id, hence the doubled path segment).  The emitted events depend only on
the directory tree passed in: the component keeps no record of previously
emitted artifacts. -/
def check_new_outputs (dir : Option RunDirTree) (run_id : String) : List CEvent :=
  if run_id = "" then []
  else
    match dir with
    | none => []
    | some t =>
      if t.subdirs = [] then check_directory_for_outputs run_id run_id t.content
      else (t.subdirs.map (fun sd => check_directory_for_outputs run_id sd.1 sd.2)).flatten

/-- Claim C2, counterexample to the statement as written: on an unchanged
run directory holding one image, a second correlator call emits again the
very image_ready event the first call already emitted — nothing is
deduplicated. -/
theorem correlator_reemission_counterexample :
    check_new_outputs (some ⟨⟨["a.webp"], none⟩, []⟩) "r" =
      [CEvent.imageReady "r" ["/api/outputs/r/r/a.webp"] 1] ∧
    CEvent.imageReady "r" ["/api/outputs/r/r/a.webp"] 1 ∈
      check_new_outputs (some ⟨⟨["a.webp"], none⟩, []⟩) "r" := by
  decide

/-- Claim C2 as amended — the correlator is stateless: every call on the
same unchanged run directory emits the same events (so a second call
re-emits what the first reported), and an image_ready event is emitted for a
subdirectory-free run directory precisely when it contains a .webp or .tif
file. -/
theorem correlator_stateless_rescan (rid : String) (t : RunDirTree)
    (hr : rid ≠ "") (hs : t.subdirs = []) :
    (∃ ps n, CEvent.imageReady rid ps n ∈ check_new_outputs (some t) rid) ↔
      ∃ f ∈ t.content.files,
        strEndsWith f ".webp" = true ∨ strEndsWith f ".tif" = true := by
  have hred : check_new_outputs (some t) rid =
      check_directory_for_outputs rid rid t.content := by
    simp [check_new_outputs, hr, hs]
  have hunf : check_directory_for_outputs rid rid t.content =
      (if (t.content.files.filter (fun f => strEndsWith f ".webp") ++
           t.content.files.filter (fun f => strEndsWith f ".tif")) = [] then []
       else [CEvent.imageReady rid
          ((t.content.files.filter (fun f => strEndsWith f ".webp") ++
            t.content.files.filter (fun f => strEndsWith f ".tif")).map (imgPath rid rid))
          (t.content.files.filter (fun f => strEndsWith f ".webp") ++
            t.content.files.filter (fun f => strEndsWith f ".tif")).length]) ++
      (match t.content.gauge with
       | some (some g) => [CEvent.gaugeData rid g]
       | _ => []) := rfl
  rw [hred, hunf]
  constructor
  · rintro ⟨ps, n, hm⟩
    rcases List.mem_append.mp hm with hm | hm
    · by_cases hi : (t.content.files.filter (fun f => strEndsWith f ".webp") ++
          t.content.files.filter (fun f => strEndsWith f ".tif")) = []
      · rw [if_pos hi] at hm
        cases hm
      · rcases List.exists_mem_of_ne_nil _ hi with ⟨f, hf⟩
        rcases List.mem_append.mp hf with hf | hf
        · exact ⟨f, (List.mem_filter.mp hf).1, Or.inl (List.mem_filter.mp hf).2⟩
        · exact ⟨f, (List.mem_filter.mp hf).1, Or.inr (List.mem_filter.mp hf).2⟩
    · exfalso
      cases hg : t.content.gauge with
      | none => rw [hg] at hm; cases hm
      | some g =>
        cases g with
        | none => rw [hg] at hm; cases hm
        | some v =>
          rw [hg] at hm
          exact CEvent.noConfusion (List.mem_singleton.mp hm)
  · rintro ⟨f, hf, hp⟩
    have hfi : f ∈ t.content.files.filter (fun f => strEndsWith f ".webp") ++
        t.content.files.filter (fun f => strEndsWith f ".tif") := by
      rcases hp with hp | hp
      · exact List.mem_append.mpr (Or.inl (List.mem_filter.mpr ⟨hf, hp⟩))
      · exact List.mem_append.mpr (Or.inr (List.mem_filter.mpr ⟨hf, hp⟩))
    have hne : (t.content.files.filter (fun f => strEndsWith f ".webp") ++
        t.content.files.filter (fun f => strEndsWith f ".tif")) ≠ [] := by
      intro h
      rw [h] at hfi
      cases hfi
    refine ⟨(t.content.files.filter (fun f => strEndsWith f ".webp") ++
        t.content.files.filter (fun f => strEndsWith f ".tif")).map (imgPath rid rid),
      (t.content.files.filter (fun f => strEndsWith f ".webp") ++
        t.content.files.filter (fun f => strEndsWith f ".tif")).length, ?_⟩
    rw [if_neg hne]
    exact List.mem_append.mpr (Or.inl (List.mem_singleton.mpr rfl))

/-- Witness for amended C2: a run directory with one .webp file. -/
theorem correlator_stateless_rescan_witness :
    (∃ ps n, CEvent.imageReady "r" ps n ∈
        check_new_outputs (some ⟨⟨["b.webp"], some (some "G")⟩, []⟩) "r") ↔
      ∃ f ∈ (⟨⟨["b.webp"], some (some "G")⟩, []⟩ : RunDirTree).content.files,
        strEndsWith f ".webp" = true ∨ strEndsWith f ".tif" = true :=
  correlator_stateless_rescan "r" ⟨⟨["b.webp"], some (some "G")⟩, []⟩
    (by decide) rfl

/-! ## Latest-output snapshot — ADKEventCapture._get_latest_outputs -/

/-- A top-level run directory under the output root: its name, its
modification time, its own files and its (name, content) subdirectories. -/
structure RunDir where
  name : String
  mtime : Nat
  content : OutDirEntry
  subdirs : List (String × OutDirEntry)
deriving DecidableEq

/-- Return value of _get_latest_outputs.  The empty result of the source has
no run_id key, hence the optional field. -/
structure LatestOutputs where
  run_id : Option String
  images : List String
  gauges : List (String × String)
deriving DecidableEq

/-- First element of `sorted(run_dirs, key=mtime, reverse=True)`: since the
sort is stable and descending, this is the first directory in iteration
order whose modification time is maximal. -/
def pickLatest (d : RunDir) (ds : List RunDir) : RunDir :=
  ds.foldl (fun best x => if x.mtime > best.mtime then x else best) d

/-- Aggregation of the selected run directory: with subdirectories
(time-series case) only the .webp images of each subdirectory, labelled
run/subdir, and the per-subdirectory gauge data labelled with the
subdirectory name; without subdirectories the .webp images of the directory
itself under the fixed label "image" and the gauge data labelled "latest".
Unparsable or missing gauge files contribute nothing. -/
def aggregateLatest (latest : RunDir) : LatestOutputs :=
  if latest.subdirs = [] then
    { run_id := some latest.name,
      images := (latest.content.files.filter (fun f => strEndsWith f ".webp")).map
        (fun f => "/api/outputs/" ++ latest.name ++ "/image/" ++ f),
      gauges := match latest.content.gauge with
        | some (some g) => [("latest", g)]
        | _ => [] }
  else
    { run_id := some latest.name,
      images := (latest.subdirs.map (fun sd =>
        (sd.2.files.filter (fun f => strEndsWith f ".webp")).map
          (fun f => imgPath latest.name sd.1 f))).flatten,
      gauges := latest.subdirs.filterMap (fun sd =>
        match sd.2.gauge with
        | some (some g) => some (sd.1, g)
        | _ => none) }

/-- ADKEventCapture._get_latest_outputs: empty result when the output root
does not exist or holds no directory; otherwise the aggregation of the
most-recently-modified run directory. -/
def get_latest_outputs (root : Option (List RunDir)) : LatestOutputs :=
  match root with
  | none => ⟨none, [], []⟩
  | some run_dirs =>
    match run_dirs with
    | [] => ⟨none, [], []⟩
    | d :: ds => aggregateLatest (pickLatest d ds)

theorem pickLatest_eq_of_unique_max (ds : List RunDir) : ∀ (d u : RunDir),
    u ∈ d :: ds → (∀ x ∈ d :: ds, x.mtime < u.mtime ∨ x = u) →
    pickLatest d ds = u := by
  induction ds with
  | nil =>
    intro d u hu hmax
    have hud : u = d := by simpa using hu
    simp [pickLatest, hud]
  | cons x ds ih =>
    intro d u hu hmax
    by_cases hxd : x.mtime > d.mtime
    · have hstep : pickLatest d (x :: ds) = pickLatest x ds := by
        simp [pickLatest, hxd]
      rw [hstep]
      apply ih x u
      · rcases List.mem_cons.mp hu with h | h
        · exfalso
          subst h
          rcases hmax x (by simp) with h' | h'
          · omega
          · rw [h'] at hxd
            omega
        · exact h
      · intro y hy
        apply hmax
        rcases List.mem_cons.mp hy with h | h
        · simp [h]
        · exact List.mem_cons_of_mem _ (List.mem_cons_of_mem _ h)
    · have hstep : pickLatest d (x :: ds) = pickLatest d ds := by
        simp [pickLatest, hxd]
      rw [hstep]
      apply ih d u
      · rcases List.mem_cons.mp hu with h | h
        · simp [h]
        · rcases List.mem_cons.mp h with h' | h'
          · subst h'
            rcases hmax d (by simp) with h'' | h''
            · exfalso
              exact hxd h''
            · rw [← h'']
              simp
          · exact List.mem_cons_of_mem _ h'
      · intro y hy
        apply hmax
        rcases List.mem_cons.mp hy with h | h
        · simp [h]
        · exact List.mem_cons_of_mem _ (List.mem_cons_of_mem _ h)

/-- Claim C9, counterexample to "returns the same image/gauge aggregation
that the per-run scan produces": on a run directory holding one .tif image
the per-run scan reports it as an image while the latest-output snapshot of
the very same directory reports no images at all (it lists only .webp
files). -/
theorem snapshot_latest_counterexample :
    check_directory_for_outputs "r" "r" ⟨["a.tif"], none⟩ =
      [CEvent.imageReady "r" ["/api/outputs/r/r/a.tif"] 1] ∧
    (get_latest_outputs (some [⟨"r", 5, ⟨["a.tif"], none⟩, []⟩])).images = [] := by
  decide

/-- Claim C9 as amended — _get_latest_outputs returns the empty result when
the output root is missing or holds no directory; otherwise it aggregates
exactly the run directory whose modification time is strictly maximal,
whatever the iteration order, and for a subdirectory-free run its images are
only the .webp files of that directory (not the .tif files the per-run scan
also reports, and under the fixed "image" path label). -/
theorem snapshot_latest_spec (d : RunDir) (ds : List RunDir) (u : RunDir)
    (hu : u ∈ d :: ds) (hmax : ∀ x ∈ d :: ds, x.mtime < u.mtime ∨ x = u) :
    get_latest_outputs none = ⟨none, [], []⟩ ∧
    get_latest_outputs (some []) = ⟨none, [], []⟩ ∧
    (∀ x ∈ d :: ds, x.mtime ≤ u.mtime) ∧
    get_latest_outputs (some (d :: ds)) = aggregateLatest u ∧
    (u.subdirs = [] →
      (get_latest_outputs (some (d :: ds))).images =
        (u.content.files.filter (fun f => strEndsWith f ".webp")).map
          (fun f => "/api/outputs/" ++ u.name ++ "/image/" ++ f)) := by
  have hpick : pickLatest d ds = u := pickLatest_eq_of_unique_max ds d u hu hmax
  have hagg : get_latest_outputs (some (d :: ds)) = aggregateLatest u := by
    simp [get_latest_outputs, hpick]
  refine ⟨rfl, rfl, ?_, hagg, ?_⟩
  · intro x hx
    rcases hmax x hx with h | h
    · omega
    · rw [h]
  · intro hsub
    rw [hagg]
    simp [aggregateLatest, hsub]

/-- Witness for amended C9: three run directories, inserted with the most
recent one in the middle. -/
theorem snapshot_latest_spec_witness :
    get_latest_outputs none = ⟨none, [], []⟩ ∧
    get_latest_outputs (some []) = ⟨none, [], []⟩ ∧
    (∀ x ∈ [(⟨"r1", 1, ⟨["a.webp"], none⟩, []⟩ : RunDir),
        ⟨"r2", 5, ⟨["b.webp", "c.tif"], some (some "G")⟩, []⟩,
        ⟨"r0", 3, ⟨[], none⟩, []⟩],
      x.mtime ≤ (⟨"r2", 5, ⟨["b.webp", "c.tif"], some (some "G")⟩, []⟩ : RunDir).mtime) ∧
    get_latest_outputs (some [⟨"r1", 1, ⟨["a.webp"], none⟩, []⟩,
        ⟨"r2", 5, ⟨["b.webp", "c.tif"], some (some "G")⟩, []⟩,
        ⟨"r0", 3, ⟨[], none⟩, []⟩]) =
      aggregateLatest ⟨"r2", 5, ⟨["b.webp", "c.tif"], some (some "G")⟩, []⟩ ∧
    ((⟨"r2", 5, ⟨["b.webp", "c.tif"], some (some "G")⟩, []⟩ : RunDir).subdirs = [] →
      (get_latest_outputs (some [⟨"r1", 1, ⟨["a.webp"], none⟩, []⟩,
          ⟨"r2", 5, ⟨["b.webp", "c.tif"], some (some "G")⟩, []⟩,
          ⟨"r0", 3, ⟨[], none⟩, []⟩])).images =
        ((⟨"r2", 5, ⟨["b.webp", "c.tif"], some (some "G")⟩, []⟩ : RunDir).content.files.filter
            (fun f => strEndsWith f ".webp")).map
          (fun f => "/api/outputs/" ++
            (⟨"r2", 5, ⟨["b.webp", "c.tif"], some (some "G")⟩, []⟩ : RunDir).name ++
            "/image/" ++ f)) :=
  snapshot_latest_spec ⟨"r1", 1, ⟨["a.webp"], none⟩, []⟩
    [⟨"r2", 5, ⟨["b.webp", "c.tif"], some (some "G")⟩, []⟩, ⟨"r0", 3, ⟨[], none⟩, []⟩]
    ⟨"r2", 5, ⟨["b.webp", "c.tif"], some (some "G")⟩, []⟩
    (by decide) (by decide)

end FloodAgent
